import Mathlib

/-!
Verification of the scroll-driven animation core of the portfolio site
(`src/Portfolio2.jsx`): the damped scalar, keyframe-track camera lookup,
section gates, velocity estimator, wheel snap stepper and the bio phase
machine, embedded shallowly over exact rational / real arithmetic.
-/

namespace Portfolio

/-! ## Configuration data (`CAMERA_PATH`, `SECTION_STOPS`, thresholds) -/

/-- A camera keyframe, mirroring the records of `CAMERA_PATH`:
`{ t, pos, look, fov, roll }` with vectors as triples of rationals. -/
structure Keyframe where
  t : ℚ
  pos : ℚ × ℚ × ℚ
  look : ℚ × ℚ × ℚ
  fov : ℚ
  roll : ℚ
deriving DecidableEq, Repr

/-- `ETHOS_POS = [70, 0, -15]`. -/
def ETHOS_POS : ℚ × ℚ × ℚ := (70, 0, -15)

/-- The fixed camera keyframe path `CAMERA_PATH` from the source. -/
def CAMERA_PATH : List Keyframe := [
  ⟨0,      (0, 1, 16),     (0, 0, 0),       70, 0⟩,
  ⟨8/100,  (40, 3/10, 14), ETHOS_POS,       64, 0⟩,
  ⟨24/100, (65, 0, 12),    ETHOS_POS,       60, 0⟩,
  ⟨30/100, (80, 1/2, 12),  (80, 0, 0),      68, 0⟩,
  ⟨38/100, (100, 0, 9),    (100, 0, 0),     62, -1⟩,
  ⟨44/100, (100, 0, 6),    (100, 0, 0),     52, 0⟩,
  ⟨52/100, (110, 3/10, 10), (110, 0, 0),    60, 1⟩,
  ⟨58/100, (120, 0, 9),    (120, 0, 0),     58, -1/2⟩,
  ⟨62/100, (120, 0, 6),    (120, 0, 0),     52, 0⟩,
  ⟨70/100, (130, 3/10, 10), (130, 0, 0),    60, 1/2⟩,
  ⟨76/100, (140, 0, 9),    (140, 0, 0),     58, -1/2⟩,
  ⟨80/100, (140, 0, 6),    (140, 0, 0),     52, 0⟩,
  ⟨86/100, (140, 0, 0),    (140, -1, -20),  42, 0⟩,
  ⟨93/100, (140, 0, -15),  (140, -1, -35),  42, 0⟩,
  ⟨1,      (140, 0, -25),  (140, -1, -45),  42, 0⟩]

/-- The section snap stops `SECTION_STOPS` from the source. -/
def SECTION_STOPS : List ℚ :=
  [0, 16/100, 22/100, 44/100, 62/100, 80/100, 96/100]

/-- `WHEEL_THRESHOLD = 60` (deltaY pixels per section advance). -/
def WHEEL_THRESHOLD : ℚ := 60

/-! ## Utilities (`clamp`, `smoothstep`, `lerp`) -/

/-- `clamp(val, min, max) = Math.max(min, Math.min(max, val))`,
generic over the ordered carrier so the same definition serves both the
rational and the real embeddings. -/
def clamp {α : Type} [LinearOrder α] (val lo hi : α) : α :=
  max lo (min hi val)

/-- `smoothstep(x) = x * x * (3 - 2 * x)`. -/
def smoothstep (x : ℚ) : ℚ := x * x * (3 - 2 * x)

/-- `THREE.MathUtils.lerp(x, y, t) = (1 - t) * x + t * y`, generic over the
ring so it serves both the rational and the real embeddings. -/
def lerp {α : Type} [CommRing α] (x y t : α) : α := (1 - t) * x + t * y

/-- Componentwise `Vector3.lerpVectors` on rational triples. -/
def lerpVectors (a b : ℚ × ℚ × ℚ) (t : ℚ) : ℚ × ℚ × ℚ :=
  (lerp a.1 b.1 t, lerp a.2.1 b.2.1 t, lerp a.2.2 b.2.2 t)

/-! ## Damped scalar (`dampValue` = `THREE.MathUtils.damp`) -/

/-- `THREE.MathUtils.lerp` over the reals (the damped scalar works on
arbitrary real time deltas, so it is embedded over `ℝ`). -/
noncomputable def lerpR (x y t : ℝ) : ℝ := (1 - t) * x + t * y

/-- `dampValue(current, target, smoothing, delta) =
THREE.MathUtils.damp(current, target, smoothing, delta)
= lerp(current, target, 1 - exp(-smoothing * delta))`. -/
noncomputable def dampValue (current target smoothing delta : ℝ) : ℝ :=
  lerpR current target (1 - Real.exp (-smoothing * delta))

/-- `n` repeated applications of `dampValue` with a fixed target, rate and
per-step delta. -/
noncomputable def dampIter (target smoothing delta : ℝ) : ℕ → ℝ → ℝ
  | 0, current => current
  | n + 1, current => dampIter target smoothing delta n
      (dampValue current target smoothing delta)

theorem dampValue_closed_form (c t r d : ℝ) :
    dampValue c t r d = t + (c - t) * Real.exp (-r * d) := by
  unfold dampValue lerpR; ring

theorem dampIter_closed_form (t r d : ℝ) (n : ℕ) (c : ℝ) :
    dampIter t r d n c = t + (c - t) * Real.exp (-r * (n * d)) := by
  induction n generalizing c with
  | zero => simp [dampIter]
  | succ n ih =>
      rw [dampIter, ih, dampValue_closed_form]
      have : -r * ((n + 1 : ℕ) * d) = -r * d + -r * (n * d) := by
        push_cast; ring
      rw [this, Real.exp_add]
      ring

/-! ## Claim C9 : configuration invariants -/

/-- C9: the fixed configuration data satisfies the declared invariants:
`SECTION_STOPS` is strictly increasing with every stop in `[0,1]`, and
`CAMERA_PATH` has strictly increasing progress values with first `t = 0`
and last `t = 1`. -/
theorem config_invariants :
    SECTION_STOPS.Pairwise (fun a b => a < b) ∧
    (∀ s ∈ SECTION_STOPS, 0 ≤ s ∧ s ≤ 1) ∧
    CAMERA_PATH.Pairwise (fun a b => a.t < b.t) ∧
    (CAMERA_PATH.head?.map Keyframe.t) = some 0 ∧
    (CAMERA_PATH.getLast?.map Keyframe.t) = some 1 := by
  refine ⟨?_, ?_, ?_, ?_, ?_⟩ <;>
    simp [SECTION_STOPS, CAMERA_PATH, ETHOS_POS, List.pairwise_cons] <;>
    norm_num

/-! ## Claim C1 : frame-rate independence of the damped scalar -/

/-- C1: for every current value, target value, positive rate and total
elapsed time `T`, one `dampValue` call with `deltaTime = T` equals (exactly,
hence within `1e-4`) `N` repeated calls with `deltaTime = T/N`, for every
`N ≥ 1` (so in particular for `N` up to 1000), because `dampValue` follows
the exponential-decay formula
`next = target + (current - target) * exp(-rate * deltaTime)`. -/
theorem damp_framerate_independent (current target rate T : ℝ) (N : ℕ)
    (hr : 0 < rate) (hN : 1 ≤ N) :
    dampIter target rate (T / N) N current = dampValue current target rate T ∧
    |dampIter target rate (T / N) N current -
      dampValue current target rate T| ≤ 1 / 10000 ∧
    dampValue current target rate T =
      target + (current - target) * Real.exp (-rate * T) := by
  have hNne : (N : ℝ) ≠ 0 := by
    have : (0 : ℝ) < N := by exact_mod_cast hN
    linarith
  have hsum : (N : ℝ) * (T / N) = T := by field_simp
  have heq : dampIter target rate (T / N) N current =
      dampValue current target rate T := by
    rw [dampIter_closed_form, dampValue_closed_form, hsum]
  refine ⟨heq, ?_, dampValue_closed_form _ _ _ _⟩
  rw [heq]
  simp

/-- Witness for C1 at `current = 0`, `target = 1`, `rate = 1`, `T = 1`,
`N = 2`. -/
theorem damp_framerate_independent_witness :
    dampIter 1 1 (1 / ((2 : ℕ) : ℝ)) 2 0 = dampValue 0 1 1 1 ∧
    |dampIter 1 1 (1 / ((2 : ℕ) : ℝ)) 2 0 - dampValue 0 1 1 1| ≤ 1 / 10000 ∧
    dampValue 0 1 1 1 = 1 + (0 - 1) * Real.exp (-1 * 1) :=
  damp_framerate_independent 0 1 1 1 2 (by norm_num) (by norm_num)

/-! ## Claim C7 : damped-scalar edge cases

The source has no special-case guards: `dampValue` is exactly
`lerp(current, target, 1 - exp(-smoothing * delta))`.  At `smoothing = 0`
the exponential factor is `1`, so the call returns `current`, not `target`
as the claim states; at strictly negative `delta` the factor exceeds `1`,
so the call does not return `current` unchanged either. -/

/-- C7 counterexample: with `current = 0`, `target = 1`, the call
`dampValue 0 1 0 1` (rate `0 ≤ 0`) returns `0 = current`, not the target
`1`; and `dampValue 0 1 1 (-1)` (deltaTime `-1 ≤ 0`) returns
`1 - exp 1 ≠ 0 = current`. -/
theorem dampValue_edge_case_counterexample :
    dampValue 0 1 0 1 = 0 ∧ (0 : ℝ) ≠ 1 ∧
    dampValue 0 1 1 (-1) = 1 - Real.exp 1 ∧ 1 - Real.exp 1 ≠ (0 : ℝ) := by
  have h1 : dampValue 0 1 0 1 = 0 := by
    rw [dampValue_closed_form]; simp
  have hexp : (2 : ℝ) ≤ Real.exp 1 := by
    have := Real.add_one_le_exp (1 : ℝ)
    linarith
  have h2 : dampValue 0 1 1 (-1) = 1 - Real.exp 1 := by
    rw [dampValue_closed_form]; ring_nf
  exact ⟨h1, by norm_num, h2, by linarith⟩

/-- C7 amended: `deltaTime = 0` returns `current` unchanged, and
`halfLifeRate = 0` also returns `current` unchanged (there is no guard
returning `target`); strictly negative arguments follow the raw exponential
formula instead of being special-cased.  The function is pure with no error
conditions. -/
theorem dampValue_edge_cases (current target rate delta : ℝ) :
    (delta = 0 → dampValue current target rate delta = current) ∧
    (rate = 0 → dampValue current target rate delta = current) := by
  constructor <;> intro h <;> rw [dampValue_closed_form, h] <;> simp

/-- Witness for C7 (amended) at concrete inputs. -/
theorem dampValue_edge_cases_witness :
    dampValue 2 5 3 0 = 2 ∧ dampValue 2 5 0 7 = 2 :=
  ⟨(dampValue_edge_cases 2 5 3 0).1 rfl, (dampValue_edge_cases 2 5 0 7).2 rfl⟩

/-! ## Wheel snap stepper (`onWheel` handler in `Portfolio`) -/

/-- The mutable state of the wheel handler: the closure variables
`wheelAccum` and `locked`, plus `currentSectionRef.current`. -/
structure WheelState where
  accum : ℚ
  locked : Bool
  index : ℤ
deriving DecidableEq, Repr

/-- One `onWheel(e)` event with `deltaY = deltaY`, mirroring the handler:
an early return while locked; otherwise accumulate, and on reaching
`±WHEEL_THRESHOLD` reset the accumulator, lock, and step the section index
(clamped to `[0, SECTION_STOPS.length - 1]`). -/
def onWheel (s : WheelState) (deltaY : ℚ) : WheelState :=
  if s.locked then s
  else
    let acc := s.accum + deltaY
    if WHEEL_THRESHOLD ≤ acc then
      ⟨0, true, min (s.index + 1) ((SECTION_STOPS.length : ℤ) - 1)⟩
    else if acc ≤ -WHEEL_THRESHOLD then
      ⟨0, true, max (s.index - 1) 0⟩
    else
      ⟨acc, s.locked, s.index⟩

/-- The `setTimeout(() => locked = false, 800)` cooldown expiry. -/
def unlock (s : WheelState) : WheelState := ⟨s.accum, false, s.index⟩

/-- The progress-bar checkpoint `onClick` handler:
`currentSectionRef.current = i`, bypassing accumulator and lock. -/
def jumpToStop (s : WheelState) (i : ℤ) : WheelState := ⟨s.accum, s.locked, i⟩

/-! ## Claim C3 : one section step per qualifying gesture -/

/-- C3: the snap stepper advances by exactly one per qualifying gesture:
a pulse bringing the accumulated magnitude to the threshold (comparison is
`>=`/`<=`, so the exact boundary triggers) changes the index by one, resets
the accumulator and locks; every pulse while locked is a no-op (hence any
burst within the cooldown window causes no further change); the index stays
clamped in `[0, stopCount-1]`, and advancing past either end is a silent
no-op. -/
theorem snap_stepper_one_step (s : WheelState) (deltaY : ℚ)
    (pulses : List ℚ) :
    (s.locked = true → onWheel s deltaY = s) ∧
    (s.locked = true → pulses.foldl onWheel s = s) ∧
    (s.locked = false → WHEEL_THRESHOLD ≤ s.accum + deltaY →
      onWheel s deltaY =
        ⟨0, true, min (s.index + 1) ((SECTION_STOPS.length : ℤ) - 1)⟩) ∧
    (s.locked = false → s.accum + deltaY ≤ -WHEEL_THRESHOLD →
      onWheel s deltaY = ⟨0, true, max (s.index - 1) 0⟩) ∧
    (0 ≤ s.index → s.index ≤ (SECTION_STOPS.length : ℤ) - 1 →
      0 ≤ (onWheel s deltaY).index ∧
        (onWheel s deltaY).index ≤ (SECTION_STOPS.length : ℤ) - 1) ∧
    (s.locked = false → s.index = (SECTION_STOPS.length : ℤ) - 1 →
      WHEEL_THRESHOLD ≤ s.accum + deltaY →
      (onWheel s deltaY).index = (SECTION_STOPS.length : ℤ) - 1) ∧
    (s.locked = false → s.index = 0 → s.accum + deltaY ≤ -WHEEL_THRESHOLD →
      (onWheel s deltaY).index = 0) := by
  have hfold : s.locked = true → pulses.foldl onWheel s = s := by
    intro hl
    induction pulses with
    | nil => rfl
    | cons p rest ih =>
        have hstep : onWheel s p = s := by simp [onWheel, hl]
        simp [List.foldl, hstep, ih]
  refine ⟨fun hl => by simp [onWheel, hl], hfold, ?_, ?_, ?_, ?_, ?_⟩
  · intro hl ht
    simp [onWheel, hl, ht]
  · intro hl ht
    have hnot : ¬ WHEEL_THRESHOLD ≤ s.accum + deltaY := by
      simp only [WHEEL_THRESHOLD] at ht ⊢
      intro hcon
      linarith
    simp [onWheel, hl, hnot, ht]
  · intro h0 h1
    simp only [onWheel]
    split_ifs <;> first | omega | (simp; omega)
  · intro hl hi ht
    simp [onWheel, hl, ht, hi]
  · intro hl hi ht
    have hnot : ¬ WHEEL_THRESHOLD ≤ s.accum + deltaY := by
      simp only [WHEEL_THRESHOLD] at ht ⊢
      intro hcon
      linarith
    simp [onWheel, hl, hnot, ht, hi]

/-- Witness for C3: a pulse of exactly `60` from the initial state advances
the index from `0` to `1`, resets the accumulator and locks; a burst of
pulses while locked changes nothing; the bounds survive; the ends are
no-ops. -/
theorem snap_stepper_one_step_witness :
    onWheel ⟨0, true, 1⟩ 60 = ⟨0, true, 1⟩ ∧
    ([10, 50, 5] : List ℚ).foldl onWheel ⟨0, true, 1⟩ = ⟨0, true, 1⟩ ∧
    onWheel ⟨0, false, 0⟩ 60 =
      ⟨0, true, min ((0 : ℤ) + 1) ((SECTION_STOPS.length : ℤ) - 1)⟩ ∧
    onWheel ⟨0, false, 1⟩ (-60) = ⟨0, true, max ((1 : ℤ) - 1) 0⟩ ∧
    (0 ≤ (onWheel ⟨0, false, 0⟩ 60).index ∧
      (onWheel ⟨0, false, 0⟩ 60).index ≤ (SECTION_STOPS.length : ℤ) - 1) ∧
    (onWheel ⟨0, false, 6⟩ 60).index = (SECTION_STOPS.length : ℤ) - 1 ∧
    (onWheel ⟨0, false, 0⟩ (-60)).index = 0 := by
  have hlock := snap_stepper_one_step ⟨0, true, 1⟩ 60 [10, 50, 5]
  have hup := snap_stepper_one_step ⟨0, false, 0⟩ 60 []
  have hdown := snap_stepper_one_step ⟨0, false, 1⟩ (-60) []
  have htop := snap_stepper_one_step ⟨0, false, 6⟩ 60 []
  have hbot := snap_stepper_one_step ⟨0, false, 0⟩ (-60) []
  refine ⟨hlock.1 rfl, hlock.2.1 rfl,
    hup.2.2.1 rfl (by norm_num [WHEEL_THRESHOLD]),
    hdown.2.2.2.1 rfl (by norm_num [WHEEL_THRESHOLD]),
    hup.2.2.2.2.1 (by norm_num) (by norm_num [SECTION_STOPS]),
    htop.2.2.2.2.2.1 rfl (by norm_num [SECTION_STOPS])
      (by norm_num [WHEEL_THRESHOLD]),
    hbot.2.2.2.2.2.2 rfl rfl (by norm_num [WHEEL_THRESHOLD])⟩

/-! ## Claim C4 : jump to stop, then damped animation -/

/-- `SCROLL_SMOOTHING = 3` (the `ScrollSmoother` damp rate). -/
noncomputable def SCROLL_SMOOTHING : ℝ := 3

/-- The camera fov damp rate: `camera.fov = dampValue(camera.fov, targetFov, 6, delta)`. -/
noncomputable def FOV_SMOOTHING : ℝ := 6

theorem exp_factor_le_one (r d : ℝ) (hr : 0 ≤ r) (hd : 0 ≤ d) :
    Real.exp (-r * d) ≤ 1 := by
  rw [show (1 : ℝ) = Real.exp 0 from Real.exp_zero.symm]
  exact Real.exp_le_exp.mpr (by nlinarith)

/-- One damp call lands between the current value and the target. -/
theorem dampValue_between (c t r d : ℝ) (hr : 0 ≤ r) (hd : 0 ≤ d) :
    min c t ≤ dampValue c t r d ∧ dampValue c t r d ≤ max c t := by
  rw [dampValue_closed_form]
  have hs0 : 0 < Real.exp (-r * d) := Real.exp_pos _
  have hs1 : Real.exp (-r * d) ≤ 1 := exp_factor_le_one r d hr hd
  rcases le_total c t with h | h
  · rw [min_eq_left h, max_eq_right h]
    constructor <;> nlinarith
  · rw [min_eq_right h, max_eq_left h]
    constructor <;> nlinarith

/-- One damp call never moves farther from the target. -/
theorem dampValue_dist_le (c t r d : ℝ) (hr : 0 ≤ r) (hd : 0 ≤ d) :
    |dampValue c t r d - t| ≤ |c - t| := by
  rw [dampValue_closed_form]
  have h : t + (c - t) * Real.exp (-r * d) - t = (c - t) * Real.exp (-r * d) := by
    ring
  rw [h, abs_mul, abs_of_pos (Real.exp_pos _)]
  have hs1 := exp_factor_le_one r d hr hd
  nlinarith [abs_nonneg (c - t)]

/-- C4: clicking a progress-bar checkpoint (`jumpToStop`) sets the current
stop index immediately while bypassing pulse accumulation (accumulator and
lock untouched); then repeated damped ticks make the scroll progress
approach the stop's progress monotonically without ever passing it, and
the damping never teleports (a single tick hits the target only if it was
already there); the field-of-view damp step likewise stays between the old
fov and its target and never moves farther from the target. -/
theorem jump_then_damped_approach (s : WheelState) (i : ℤ)
    (scroll target fov ftarget d : ℝ) (n : ℕ) (hd : 0 ≤ d) :
    (jumpToStop s i).index = i ∧
    (jumpToStop s i).accum = s.accum ∧
    (jumpToStop s i).locked = s.locked ∧
    (scroll ≤ target →
      dampIter target SCROLL_SMOOTHING d n scroll ≤
        dampIter target SCROLL_SMOOTHING d (n + 1) scroll ∧
      dampIter target SCROLL_SMOOTHING d n scroll ≤ target) ∧
    (target ≤ scroll →
      dampIter target SCROLL_SMOOTHING d (n + 1) scroll ≤
        dampIter target SCROLL_SMOOTHING d n scroll ∧
      target ≤ dampIter target SCROLL_SMOOTHING d n scroll) ∧
    (scroll ≠ target → dampValue scroll target SCROLL_SMOOTHING d ≠ target) ∧
    min fov ftarget ≤ dampValue fov ftarget FOV_SMOOTHING d ∧
    dampValue fov ftarget FOV_SMOOTHING d ≤ max fov ftarget ∧
    |dampValue fov ftarget FOV_SMOOTHING d - ftarget| ≤ |fov - ftarget| := by
  have hrate : (0 : ℝ) < SCROLL_SMOOTHING := by norm_num [SCROLL_SMOOTHING]
  have key : ∀ m : ℕ, dampIter target SCROLL_SMOOTHING d m scroll =
      target + (scroll - target) * Real.exp (-SCROLL_SMOOTHING * (m * d)) :=
    fun m => dampIter_closed_form target SCROLL_SMOOTHING d m scroll
  have hmono : Real.exp (-SCROLL_SMOOTHING * ((n + 1 : ℕ) * d)) ≤
      Real.exp (-SCROLL_SMOOTHING * (n * d)) := by
    apply Real.exp_le_exp.mpr
    push_cast
    have hn : (0 : ℝ) ≤ (n : ℝ) := Nat.cast_nonneg n
    nlinarith
  have hpos : 0 < Real.exp (-SCROLL_SMOOTHING * (n * d)) := Real.exp_pos _
  refine ⟨rfl, rfl, rfl, ?_, ?_, ?_, ?_, ?_, ?_⟩
  · intro h
    rw [key n, key (n + 1)]
    constructor <;> nlinarith
  · intro h
    rw [key n, key (n + 1)]
    constructor <;> nlinarith
  · intro h hc
    rw [dampValue_closed_form] at hc
    have hexp : Real.exp (-SCROLL_SMOOTHING * d) ≠ 0 :=
      ne_of_gt (Real.exp_pos _)
    have : (scroll - target) * Real.exp (-SCROLL_SMOOTHING * d) = 0 := by
      linarith
    rcases mul_eq_zero.mp this with h0 | h0
    · exact h (by linarith)
    · exact hexp h0
  · exact (dampValue_between fov ftarget FOV_SMOOTHING d
      (by norm_num [FOV_SMOOTHING]) hd).1
  · exact (dampValue_between fov ftarget FOV_SMOOTHING d
      (by norm_num [FOV_SMOOTHING]) hd).2
  · exact dampValue_dist_le fov ftarget FOV_SMOOTHING d
      (by norm_num [FOV_SMOOTHING]) hd

/-- Witness for C4 at concrete inputs: jump from the initial state to stop
`6`; scroll `0` toward target `1` and scroll `1` toward target `0`, both
with `d = 1/60`, `n = 0`; fov `70` toward `50`. -/
theorem jump_then_damped_approach_witness :
    (jumpToStop ⟨0, false, 0⟩ 6).index = 6 ∧
    (dampIter 1 SCROLL_SMOOTHING (1 / 60) 0 0 ≤
        dampIter 1 SCROLL_SMOOTHING (1 / 60) (0 + 1) 0 ∧
      dampIter 1 SCROLL_SMOOTHING (1 / 60) 0 0 ≤ 1) ∧
    (dampIter 0 SCROLL_SMOOTHING (1 / 60) (0 + 1) 1 ≤
        dampIter 0 SCROLL_SMOOTHING (1 / 60) 0 1 ∧
      (0 : ℝ) ≤ dampIter 0 SCROLL_SMOOTHING (1 / 60) 0 1) ∧
    dampValue 0 1 SCROLL_SMOOTHING (1 / 60) ≠ 1 ∧
    min (70 : ℝ) 50 ≤ dampValue 70 50 FOV_SMOOTHING (1 / 60) ∧
    dampValue 70 50 FOV_SMOOTHING (1 / 60) ≤ max (70 : ℝ) 50 ∧
    |dampValue 70 50 FOV_SMOOTHING (1 / 60) - 50| ≤ |(70 : ℝ) - 50| := by
  have h1 := jump_then_damped_approach ⟨0, false, 0⟩ 6 0 1 70 50 (1 / 60) 0
    (by norm_num)
  have h2 := jump_then_damped_approach ⟨0, false, 0⟩ 6 1 0 70 50 (1 / 60) 0
    (by norm_num)
  exact ⟨h1.1, h1.2.2.2.1 (by norm_num), h2.2.2.2.2.1 (by norm_num),
    h1.2.2.2.2.2.1 (by norm_num), h1.2.2.2.2.2.2.1, h1.2.2.2.2.2.2.2.1,
    h1.2.2.2.2.2.2.2.2⟩

/-! ## Claim C8 : velocity estimator stays in [0,1] -/

/-- `rawVelocity = Math.abs(t - prevScroll.current) / Math.max(delta, 0.001)`. -/
noncomputable def rawVelocity (t prev delta : ℝ) : ℝ :=
  |t - prev| / max delta (1 / 1000)

/-- The damp target `clamp(rawVelocity * 40, 0, 1)`. -/
noncomputable def velocityTarget (t prev delta : ℝ) : ℝ :=
  clamp (rawVelocity t prev delta * 40) 0 1

/-- One tick of the estimator:
`velocityRef.current = dampValue(velocityRef.current, clamp(rawVelocity * 40, 0, 1), 14, delta)`. -/
noncomputable def velocityStep (v t prev delta : ℝ) : ℝ :=
  dampValue v (velocityTarget t prev delta) 14 delta

/-- Folding the estimator over a list of `(progress, delta)` ticks,
threading `prevScroll` exactly as `CameraController` does. -/
noncomputable def velocityRun : ℝ → ℝ → List (ℝ × ℝ) → ℝ
  | v, _, [] => v
  | v, prev, (t, d) :: rest => velocityRun (velocityStep v t prev d) t rest

theorem velocityTarget_mem (t prev delta : ℝ) :
    0 ≤ velocityTarget t prev delta ∧ velocityTarget t prev delta ≤ 1 := by
  unfold velocityTarget clamp
  exact ⟨le_max_left _ _, max_le (by norm_num) (min_le_left _ _)⟩

theorem velocityRun_mem (ticks : List (ℝ × ℝ)) :
    ∀ v prev, 0 ≤ v → v ≤ 1 → (∀ p ∈ ticks, 0 ≤ p.2) →
      0 ≤ velocityRun v prev ticks ∧ velocityRun v prev ticks ≤ 1 := by
  induction ticks with
  | nil =>
      intro v prev h0 h1 _
      exact ⟨h0, h1⟩
  | cons p rest ih =>
      intro v prev h0 h1 hall
      obtain ⟨t, d⟩ := p
      have hd : 0 ≤ d := hall (t, d) (by simp)
      have htgt := velocityTarget_mem t prev d
      have hstep := dampValue_between v (velocityTarget t prev d) 14 d
        (by norm_num) hd
      have hlo : 0 ≤ velocityStep v t prev d := by
        have : (0 : ℝ) ≤ min v (velocityTarget t prev d) :=
          le_min h0 htgt.1

        exact le_trans this hstep.1
      have hhi : velocityStep v t prev d ≤ 1 := by
        have : max v (velocityTarget t prev d) ≤ 1 := max_le h1 htgt.2
        exact le_trans hstep.2 this
      have := ih (velocityStep v t prev d) t hlo hhi
        (fun q hq => hall q (List.mem_cons_of_mem _ hq))
      simpa [velocityRun] using this

/-- C8: the raw rate divides by `max(delta, 0.001)`, which is at least
`0.001 > 0` (never a zero divisor); the damp target is clamped into
`[0,1]`; and the smoothed estimate, started at `0` and folded over any
sequence of ticks with non-negative deltas, stays within `[0,1]`. -/
theorem velocity_estimator_bounded (x prev : ℝ) (ticks : List (ℝ × ℝ))
    (hd : ∀ p ∈ ticks, 0 ≤ p.2) :
    (∀ delta : ℝ, (1 : ℝ) / 1000 ≤ max delta (1 / 1000) ∧
      0 < max delta (1 / 1000)) ∧
    (0 ≤ clamp x (0 : ℝ) 1 ∧ clamp x (0 : ℝ) 1 ≤ 1) ∧
    0 ≤ velocityRun 0 prev ticks ∧ velocityRun 0 prev ticks ≤ 1 := by
  refine ⟨fun delta => ⟨le_max_right _ _, ?_⟩, ⟨?_, ?_⟩, ?_⟩
  · have : (0 : ℝ) < 1 / 1000 := by norm_num
    exact lt_of_lt_of_le this (le_max_right _ _)
  · exact le_max_left _ _
  · exact max_le (by norm_num) (min_le_left _ _)
  · exact velocityRun_mem ticks 0 prev le_rfl (by norm_num) hd

/-- Witness for C8 on one concrete tick list. -/
theorem velocity_estimator_bounded_witness :
    ((∀ delta : ℝ, (1 : ℝ) / 1000 ≤ max delta (1 / 1000) ∧
      0 < max delta (1 / 1000)) ∧
    (0 ≤ clamp (5 : ℝ) 0 1 ∧ clamp (5 : ℝ) 0 1 ≤ 1) ∧
    0 ≤ velocityRun 0 0 [((1 : ℝ), (1 / 60 : ℝ))] ∧
      velocityRun 0 0 [((1 : ℝ), (1 / 60 : ℝ))] ≤ 1) :=
  velocity_estimator_bounded 5 0 [(1, 1 / 60)] (by norm_num)

/-! ## Ethos overlay (`EthosOverlay`) : section gate and checkpoints -/

/-- `ETHOS_ENTER = 0.08`. -/
def ETHOS_ENTER : ℚ := 8 / 100

/-- `ETHOS_EXIT = 0.24`. -/
def ETHOS_EXIT : ℚ := 24 / 100

/-- `fadeIn = Math.min(1, Math.max(0, (t - ETHOS_ENTER) / 0.025))`. -/
def ethosFadeIn (t : ℚ) : ℚ := min 1 (max 0 ((t - ETHOS_ENTER) / (25 / 1000)))

/-- `fadeOut = Math.min(1, Math.max(0, (ETHOS_EXIT - t) / 0.025))`. -/
def ethosFadeOut (t : ℚ) : ℚ := min 1 (max 0 ((ETHOS_EXIT - t) / (25 / 1000)))

/-- `opacity = Math.min(fadeIn, fadeOut)`. -/
def ethosOpacity (t : ℚ) : ℚ := min (ethosFadeIn t) (ethosFadeOut t)

theorem clamp01_nonneg (x : ℚ) : 0 ≤ min 1 (max 0 x) :=
  le_min (by norm_num) (le_max_left _ _)

theorem clamp01_le_one (x : ℚ) : min 1 (max 0 x) ≤ 1 := min_le_left _ _

theorem clamp01_mono {x y : ℚ} (h : x ≤ y) :
    min 1 (max 0 x) ≤ min 1 (max 0 y) :=
  min_le_min le_rfl (max_le_max le_rfl h)

theorem clamp01_eq_zero {x : ℚ} (h : x ≤ 0) : min 1 (max 0 x) = 0 := by
  rw [max_eq_left h, min_eq_right]
  norm_num

theorem clamp01_eq_one {x : ℚ} (h : 1 ≤ x) : min 1 (max 0 x) = 1 :=
  min_eq_left (le_trans h (le_max_right _ _))

theorem ethosFadeIn_arg (t : ℚ) :
    (t - ETHOS_ENTER) / (25 / 1000) = 40 * t - 16 / 5 := by
  rw [ETHOS_ENTER]; ring

theorem ethosFadeOut_arg (t : ℚ) :
    (ETHOS_EXIT - t) / (25 / 1000) = 48 / 5 - 40 * t := by
  rw [ETHOS_EXIT]; ring

/-! ## Claim C5 : section-gate opacity -/

/-- C5: the gate opacity is the minimum of the two clamped linear edge
ramps of band width `0.025`; it is `0` strictly outside
`[ETHOS_ENTER, ETHOS_EXIT]` (indeed on the closed boundary too), rises
monotonically across the enter band, holds at `1` through the interior,
and falls monotonically across the exit band. -/
theorem section_gate_opacity (t a b : ℚ) :
    ethosOpacity t = min (ethosFadeIn t) (ethosFadeOut t) ∧
    (t < ETHOS_ENTER → ethosOpacity t = 0) ∧
    (ETHOS_EXIT < t → ethosOpacity t = 0) ∧
    (ETHOS_ENTER ≤ a → a ≤ b → b ≤ ETHOS_ENTER + 25 / 1000 →
      ethosOpacity a ≤ ethosOpacity b) ∧
    (ETHOS_ENTER + 25 / 1000 ≤ t → t ≤ ETHOS_EXIT - 25 / 1000 →
      ethosOpacity t = 1) ∧
    (ETHOS_EXIT - 25 / 1000 ≤ a → a ≤ b → b ≤ ETHOS_EXIT →
      ethosOpacity b ≤ ethosOpacity a) := by
  refine ⟨rfl, ?_, ?_, ?_, ?_, ?_⟩
  · intro h
    rw [ETHOS_ENTER] at h
    have hin : ethosFadeIn t = 0 := by
      rw [ethosFadeIn, ethosFadeIn_arg]
      exact clamp01_eq_zero (by linarith)
    rw [ethosOpacity, hin]
    exact min_eq_left (by rw [ethosFadeOut]; exact clamp01_nonneg _)
  · intro h
    rw [ETHOS_EXIT] at h
    have hout : ethosFadeOut t = 0 := by
      rw [ethosFadeOut, ethosFadeOut_arg]
      exact clamp01_eq_zero (by linarith)
    rw [ethosOpacity, hout]
    exact min_eq_right (by rw [ethosFadeIn]; exact clamp01_nonneg _)
  · intro h1 h2 h3
    rw [ETHOS_ENTER] at h1
    rw [ETHOS_ENTER] at h3
    have hfadeOut : ∀ u : ℚ, u ≤ 21 / 100 → ethosFadeOut u = 1 := by
      intro u hu
      rw [ethosFadeOut, ethosFadeOut_arg]
      exact clamp01_eq_one (by linarith)
    have ha : ethosOpacity a = ethosFadeIn a := by
      rw [ethosOpacity, hfadeOut a (by linarith)]
      exact min_eq_left (by rw [ethosFadeIn]; exact clamp01_le_one _)
    have hb : ethosOpacity b = ethosFadeIn b := by
      rw [ethosOpacity, hfadeOut b (by linarith)]
      exact min_eq_left (by rw [ethosFadeIn]; exact clamp01_le_one _)
    rw [ha, hb, ethosFadeIn, ethosFadeIn, ethosFadeIn_arg, ethosFadeIn_arg]
    exact clamp01_mono (by linarith)
  · intro h1 h2
    rw [ETHOS_ENTER] at h1
    rw [ETHOS_EXIT] at h2
    have hin : ethosFadeIn t = 1 := by
      rw [ethosFadeIn, ethosFadeIn_arg]
      exact clamp01_eq_one (by linarith)
    have hout : ethosFadeOut t = 1 := by
      rw [ethosFadeOut, ethosFadeOut_arg]
      exact clamp01_eq_one (by linarith)
    rw [ethosOpacity, hin, hout]
    norm_num
  · intro h1 h2 h3
    rw [ETHOS_EXIT] at h1
    rw [ETHOS_EXIT] at h3
    have hfadeIn : ∀ u : ℚ, 11 / 100 ≤ u → ethosFadeIn u = 1 := by
      intro u hu
      rw [ethosFadeIn, ethosFadeIn_arg]
      exact clamp01_eq_one (by linarith)
    have ha : ethosOpacity a = ethosFadeOut a := by
      rw [ethosOpacity, hfadeIn a (by linarith)]
      exact min_eq_right (by rw [ethosFadeOut]; exact clamp01_le_one _)
    have hb : ethosOpacity b = ethosFadeOut b := by
      rw [ethosOpacity, hfadeIn b (by linarith)]
      exact min_eq_right (by rw [ethosFadeOut]; exact clamp01_le_one _)
    rw [ha, hb, ethosFadeOut, ethosFadeOut, ethosFadeOut_arg, ethosFadeOut_arg]
    exact clamp01_mono (by linarith)

/-- Witness for C5 at concrete points: opacity is `0` at `t = 0.05`
(before the window) and nondecreasing from `t = 0.09` to `t = 0.10`
inside the enter band. -/
theorem section_gate_opacity_witness :
    ethosOpacity (5 / 100) = 0 ∧
    ethosOpacity (9 / 100) ≤ ethosOpacity (10 / 100) :=
  ⟨(section_gate_opacity (5 / 100) (9 / 100) (10 / 100)).2.1
      (by norm_num [ETHOS_ENTER]),
   (section_gate_opacity (5 / 100) (9 / 100) (10 / 100)).2.2.2.1
      (by norm_num [ETHOS_ENTER]) (by norm_num) (by norm_num [ETHOS_ENTER])⟩

/-! ## Claim C6 : discrete checkpoint activation -/

/-- `THRESHOLDS = [0.12, 0.48, 0.80]` (fractions of ethos progress at
which each checkpoint fires). -/
def THRESHOLDS : List ℚ := [12 / 100, 48 / 100, 80 / 100]

/-- `progress = Math.max(0, Math.min(1, (t - ETHOS_ENTER) / (ETHOS_EXIT - ETHOS_ENTER)))`. -/
def ethosProgress (t : ℚ) : ℚ :=
  max 0 (min 1 ((t - ETHOS_ENTER) / (ETHOS_EXIT - ETHOS_ENTER)))

/-- `newCount = THRESHOLDS.filter(th => progress >= th).length`. -/
def activeCount (t : ℚ) : ℕ :=
  (THRESHOLDS.filter (fun th => th ≤ ethosProgress t)).length

/-- The `prevCountRef` gate: a React state update is emitted only when
`newCount !== prevCountRef.current`. -/
def emitsUpdate (prevCount : ℕ) (t : ℚ) : Bool := activeCount t != prevCount

theorem ethosProgress_arg (t : ℚ) :
    (t - ETHOS_ENTER) / (ETHOS_EXIT - ETHOS_ENTER) = 25 / 4 * t - 1 / 2 := by
  rw [ETHOS_ENTER, ETHOS_EXIT]; ring

theorem ethosProgress_mono {t1 t2 : ℚ} (h : t1 ≤ t2) :
    ethosProgress t1 ≤ ethosProgress t2 := by
  unfold ethosProgress
  rw [ethosProgress_arg, ethosProgress_arg]
  exact max_le_max le_rfl (min_le_min le_rfl (by linarith))

theorem activeCount_cases (t : ℚ) :
    activeCount t =
      if (80 / 100 : ℚ) ≤ ethosProgress t then 3
      else if (48 / 100 : ℚ) ≤ ethosProgress t then 2
      else if (12 / 100 : ℚ) ≤ ethosProgress t then 1
      else 0 := by
  by_cases h80 : (80 / 100 : ℚ) ≤ ethosProgress t
  · have h48 : (48 / 100 : ℚ) ≤ ethosProgress t := by linarith
    have h12 : (12 / 100 : ℚ) ≤ ethosProgress t := by linarith
    simp [activeCount, THRESHOLDS, List.filter, h12, h48, h80]
  · by_cases h48 : (48 / 100 : ℚ) ≤ ethosProgress t
    · have h12 : (12 / 100 : ℚ) ≤ ethosProgress t := by linarith
      simp [activeCount, THRESHOLDS, List.filter, h12, h48, h80]
    · by_cases h12 : (12 / 100 : ℚ) ≤ ethosProgress t
      · simp [activeCount, THRESHOLDS, List.filter, h12, h48, h80]
      · simp [activeCount, THRESHOLDS, List.filter, h12, h48, h80]

/-- C6: the active checkpoint count equals the number of thresholds the
local section progress has reached (comparison `>=`); it is monotone
non-decreasing in the scroll value, transitions `0→1` at local progress
`0.12`, `1→2` at `0.48` and `2→3` at `0.80`, and a state update is
emitted exactly when the count differs from the previously reported one
(no per-frame re-emission of an unchanged value). -/
theorem checkpoint_activation (t t1 t2 : ℚ) (prevCount : ℕ)
    (hmono : t1 ≤ t2) :
    activeCount t =
      (THRESHOLDS.filter (fun th => th ≤ ethosProgress t)).length ∧
    activeCount t1 ≤ activeCount t2 ∧
    (ethosProgress t < 12 / 100 → activeCount t = 0) ∧
    (12 / 100 ≤ ethosProgress t → ethosProgress t < 48 / 100 →
      activeCount t = 1) ∧
    (48 / 100 ≤ ethosProgress t → ethosProgress t < 80 / 100 →
      activeCount t = 2) ∧
    (80 / 100 ≤ ethosProgress t → activeCount t = 3) ∧
    (emitsUpdate prevCount t = true ↔ activeCount t ≠ prevCount) := by
  have hp := ethosProgress_mono hmono
  refine ⟨rfl, ?_, ?_, ?_, ?_, ?_, ?_⟩
  · rw [activeCount_cases t1, activeCount_cases t2]
    split_ifs <;> first | omega | (exfalso; push_neg at *; linarith)
  · intro h
    rw [activeCount_cases t]
    split_ifs <;> first | rfl | (exfalso; linarith)
  · intro h1 h2
    rw [activeCount_cases t]
    split_ifs <;> first | rfl | (exfalso; linarith)
  · intro h1 h2
    rw [activeCount_cases t]
    split_ifs <;> first | rfl | (exfalso; linarith)
  · intro h
    rw [activeCount_cases t]
    split_ifs <;> first | rfl | (exfalso; linarith)
  · simp [emitsUpdate, bne_iff_ne]

/-- Witness for C6: at `t = 0.128` the local progress is `0.3`, so exactly
one checkpoint is active, and no update is emitted when the previous
count is already `1`. -/
theorem checkpoint_activation_witness :
    activeCount (128 / 1000) = 1 ∧
    activeCount (10 / 100) ≤ activeCount (128 / 1000) ∧
    (emitsUpdate 1 (128 / 1000) = true ↔ activeCount (128 / 1000) ≠ 1) := by
  have h := checkpoint_activation (128 / 1000) (10 / 100) (128 / 1000) 1
    (by norm_num)
  refine ⟨h.2.2.2.1 ?_ ?_, h.2.1, h.2.2.2.2.2.2⟩ <;>
    norm_num [ethosProgress, ethosProgress_arg, min_def, max_def]

/-! ## Bio section phase machine (`BioSection`) -/

/-- `BIO_ENTER = 0.86`. -/
def BIO_ENTER : ℚ := 86 / 100

/-- `BIO_FULL = 0.93`. -/
def BIO_FULL : ℚ := 93 / 100

/-- The values of the `phase` state variable of `BioSection`. -/
inductive Phase
  | idle
  | debris
  | collapse
  | appeared
  | afterglow
deriving DecidableEq, Repr

/-- Position of a phase in the forward order
`idle → debris → collapse → appeared → afterglow`. -/
def phaseRank : Phase → ℕ
  | .idle => 0
  | .debris => 1
  | .collapse => 2
  | .appeared => 3
  | .afterglow => 4

/-- The mutable state of `BioSection`: `phaseRef` and `timerRef`. -/
structure BioState where
  phase : Phase
  timer : ℚ
deriving DecidableEq, Repr

/-- One `useFrame` tick of `BioSection`: early reset to `idle` when the
scroll falls below `BIO_ENTER - 0.04`; otherwise the timer accumulates and
the four sequential `if` statements run in order against the just-updated
phase, exactly as in the source. -/
def bioStep (s : BioState) (t delta : ℚ) : BioState :=
  if t < BIO_ENTER - 4 / 100 then
    if s.phase ≠ Phase.idle then ⟨Phase.idle, 0⟩ else s
  else
    let s0 : BioState := ⟨s.phase, s.timer + delta⟩
    let s1 : BioState :=
      if s0.phase = Phase.idle ∧ BIO_ENTER ≤ t then ⟨Phase.debris, 0⟩ else s0
    let s2 : BioState :=
      if s1.phase = Phase.debris ∧ 14 / 10 < s1.timer then ⟨Phase.collapse, 0⟩
      else s1
    let s3 : BioState :=
      if s2.phase = Phase.collapse ∧ 4 / 10 < s2.timer then ⟨Phase.appeared, 0⟩
      else s2
    if s3.phase = Phase.appeared ∧ 6 / 10 < s3.timer then
      ⟨Phase.afterglow, s3.timer⟩
    else s3

theorem bioStep_reset (s : BioState) (t delta : ℚ)
    (h : t < BIO_ENTER - 4 / 100) : (bioStep s t delta).phase = Phase.idle := by
  rcases s with ⟨ph, tm⟩
  rcases ph <;> simp [bioStep, h]

theorem bioStep_idle_eq (tm t delta : ℚ) (ht : ¬ t < BIO_ENTER - 4 / 100) :
    bioStep ⟨Phase.idle, tm⟩ t delta =
      if BIO_ENTER ≤ t then ⟨Phase.debris, 0⟩ else ⟨Phase.idle, tm + delta⟩ := by
  unfold bioStep
  rw [if_neg ht]
  have h14 : ¬((14 : ℚ) / 10 < 0) := by norm_num
  by_cases he : BIO_ENTER ≤ t <;> simp [he, h14]

theorem bioStep_debris_eq (tm t delta : ℚ) (ht : ¬ t < BIO_ENTER - 4 / 100) :
    bioStep ⟨Phase.debris, tm⟩ t delta =
      if 14 / 10 < tm + delta then ⟨Phase.collapse, 0⟩
      else ⟨Phase.debris, tm + delta⟩ := by
  unfold bioStep
  rw [if_neg ht]
  have h4 : ¬((4 : ℚ) / 10 < 0) := by norm_num
  by_cases hc : (14 / 10 : ℚ) < tm + delta <;> simp [hc, h4]

theorem bioStep_collapse_eq (tm t delta : ℚ) (ht : ¬ t < BIO_ENTER - 4 / 100) :
    bioStep ⟨Phase.collapse, tm⟩ t delta =
      if 4 / 10 < tm + delta then ⟨Phase.appeared, 0⟩
      else ⟨Phase.collapse, tm + delta⟩ := by
  unfold bioStep
  rw [if_neg ht]
  have h6 : ¬((6 : ℚ) / 10 < 0) := by norm_num
  by_cases hc : (4 / 10 : ℚ) < tm + delta <;> simp [hc, h6]

theorem bioStep_appeared_eq (tm t delta : ℚ) (ht : ¬ t < BIO_ENTER - 4 / 100) :
    bioStep ⟨Phase.appeared, tm⟩ t delta =
      if 6 / 10 < tm + delta then ⟨Phase.afterglow, tm + delta⟩
      else ⟨Phase.appeared, tm + delta⟩ := by
  unfold bioStep
  rw [if_neg ht]
  by_cases hc : (6 / 10 : ℚ) < tm + delta <;> simp [hc]

theorem bioStep_afterglow_eq (tm t delta : ℚ) (ht : ¬ t < BIO_ENTER - 4 / 100) :
    bioStep ⟨Phase.afterglow, tm⟩ t delta = ⟨Phase.afterglow, tm + delta⟩ := by
  unfold bioStep
  rw [if_neg ht]
  simp

/-! ## Claim C10 : the bio phase machine only moves forward or resets -/

/-- C10: each tick either keeps the phase or advances it one step along
`idle → debris → collapse → appeared → afterglow`; the `idle → debris`
advance fires exactly when the scroll has reached `BIO_ENTER`, the later
advances fire exactly when their elapsed-time timers expire; the only
transition into `idle` from another phase is the reset, which happens
exactly when the scroll is below `BIO_ENTER - 0.04`; no other transition
is reachable. -/
theorem bio_phase_forward_only (s : BioState) (t delta : ℚ) :
    (t < BIO_ENTER - 4 / 100 → (bioStep s t delta).phase = Phase.idle) ∧
    (s.phase ≠ Phase.idle → (bioStep s t delta).phase = Phase.idle →
      t < BIO_ENTER - 4 / 100) ∧
    (BIO_ENTER - 4 / 100 ≤ t →
      phaseRank (bioStep s t delta).phase = phaseRank s.phase ∨
      phaseRank (bioStep s t delta).phase = phaseRank s.phase + 1) ∧
    (s.phase = Phase.idle → BIO_ENTER - 4 / 100 ≤ t →
      ((bioStep s t delta).phase = Phase.debris ↔ BIO_ENTER ≤ t)) ∧
    (s.phase = Phase.debris → BIO_ENTER - 4 / 100 ≤ t →
      ((bioStep s t delta).phase = Phase.collapse ↔
        14 / 10 < s.timer + delta)) ∧
    (s.phase = Phase.collapse → BIO_ENTER - 4 / 100 ≤ t →
      ((bioStep s t delta).phase = Phase.appeared ↔
        4 / 10 < s.timer + delta)) ∧
    (s.phase = Phase.appeared → BIO_ENTER - 4 / 100 ≤ t →
      ((bioStep s t delta).phase = Phase.afterglow ↔
        6 / 10 < s.timer + delta)) ∧
    (s.phase = Phase.afterglow → BIO_ENTER - 4 / 100 ≤ t →
      (bioStep s t delta).phase = Phase.afterglow) := by
  rcases s with ⟨ph, tm⟩
  by_cases hreset : t < BIO_ENTER - 4 / 100
  · refine ⟨fun _ => bioStep_reset _ _ _ hreset, fun _ _ => hreset, ?_, ?_, ?_,
      ?_, ?_, ?_⟩ <;>
      (intro h1
       first
         | exact absurd hreset (not_lt.mpr h1)
         | (intro h2; exact absurd hreset (not_lt.mpr h2)))
  · have hge : BIO_ENTER - 4 / 100 ≤ t := not_lt.mp hreset
    rcases ph
    · rw [bioStep_idle_eq tm t delta hreset]
      refine ⟨fun h => absurd h hreset, fun hne _ => absurd rfl hne, ?_, ?_,
        ?_, ?_, ?_, ?_⟩
      · intro _
        split_ifs <;> simp [phaseRank]
      · intro _ _
        split_ifs with hcond <;> simp [hcond]
      · intro hd _; simp at hd
      · intro hd _; simp at hd
      · intro hd _; simp at hd
      · intro hd _; simp at hd
    · rw [bioStep_debris_eq tm t delta hreset]
      refine ⟨fun h => absurd h hreset, ?_, ?_, ?_, ?_, ?_, ?_, ?_⟩
      · intro _
        split_ifs <;> simp
      · intro _
        split_ifs <;> simp [phaseRank]
      · intro hd _; simp at hd
      · intro _ _
        split_ifs with hcond <;> simp [hcond]
      · intro hd _; simp at hd
      · intro hd _; simp at hd
      · intro hd _; simp at hd
    · rw [bioStep_collapse_eq tm t delta hreset]
      refine ⟨fun h => absurd h hreset, ?_, ?_, ?_, ?_, ?_, ?_, ?_⟩
      · intro _
        split_ifs <;> simp
      · intro _
        split_ifs <;> simp [phaseRank]
      · intro hd _; simp at hd
      · intro hd _; simp at hd
      · intro _ _
        split_ifs with hcond <;> simp [hcond]
      · intro hd _; simp at hd
      · intro hd _; simp at hd
    · rw [bioStep_appeared_eq tm t delta hreset]
      refine ⟨fun h => absurd h hreset, ?_, ?_, ?_, ?_, ?_, ?_, ?_⟩
      · intro _
        split_ifs <;> simp
      · intro _
        split_ifs <;> simp [phaseRank]
      · intro hd _; simp at hd
      · intro hd _; simp at hd
      · intro hd _; simp at hd
      · intro _ _
        split_ifs with hcond <;> simp [hcond]
      · intro hd _; simp at hd
    · rw [bioStep_afterglow_eq tm t delta hreset]
      refine ⟨fun h => absurd h hreset, ?_, ?_, ?_, ?_, ?_, ?_, ?_⟩
      · intro _; simp
      · intro _; simp [phaseRank]
      · intro hd _; simp at hd
      · intro hd _; simp at hd
      · intro hd _; simp at hd
      · intro hd _; simp at hd
      · intro _ _; rfl

/-- Witness for C10: from `idle` at `t = 0.9 ≥ BIO_ENTER` the machine
enters `debris`; from `debris` with an expired timer it collapses; from
any phase at `t = 0.5` it resets to `idle`. -/
theorem bio_phase_forward_only_witness :
    (bioStep ⟨Phase.idle, 0⟩ (9 / 10) (1 / 60)).phase = Phase.debris ∧
    ((bioStep ⟨Phase.debris, 3 / 2⟩ (9 / 10) (1 / 60)).phase = Phase.collapse ↔
      14 / 10 < (3 / 2 : ℚ) + 1 / 60) ∧
    (bioStep ⟨Phase.appeared, 0⟩ (1 / 2) (1 / 60)).phase = Phase.idle := by
  have h1 := bio_phase_forward_only ⟨Phase.idle, 0⟩ (9 / 10) (1 / 60)
  have h2 := bio_phase_forward_only ⟨Phase.debris, 3 / 2⟩ (9 / 10) (1 / 60)
  have h3 := bio_phase_forward_only ⟨Phase.appeared, 0⟩ (1 / 2) (1 / 60)
  refine ⟨?_, ?_, ?_⟩
  · exact (h1.2.2.2.1 rfl (by norm_num [BIO_ENTER])).mpr
      (by norm_num [BIO_ENTER])
  · exact h2.2.2.2.2.1 rfl (by norm_num [BIO_ENTER])
  · exact h3.1 (by norm_num [BIO_ENTER])

/-! ## Keyframe track lookup (`CameraController`) -/

/-- The value a JS out-of-range index would never actually produce on the
fixed path; used only as the `getD` fallback. -/
def defaultKeyframe : Keyframe := ⟨0, (0, 0, 0), (0, 0, 0), 0, 0⟩

/-- The scan loop of `CameraController`:
`for i in 0..len-2: if (t >= path[i].t && t <= path[i+1].t) break with i`,
returning the first matching window index (offset by the accumulator `n`),
or `none` when no window matches. -/
def scanPairs : List Keyframe → ℚ → ℕ → Option ℕ
  | a :: b :: rest, t, n =>
      if a.t ≤ t ∧ t ≤ b.t then some n else scanPairs (b :: rest) t (n + 1)
  | _, _, _ => none

/-- `startIndex`: the loop result (default `0`), overridden to `len - 2`
by the trailing `if (t >= CAMERA_PATH[CAMERA_PATH.length - 1].t)`. -/
def findStartIndex (path : List Keyframe) (t : ℚ) : ℕ :=
  if (path.getD (path.length - 1) defaultKeyframe).t ≤ t then path.length - 2
  else (scanPairs path t 0).getD 0

/-- `start = CAMERA_PATH[startIndex]`. -/
def segmentStart (path : List Keyframe) (t : ℚ) : Keyframe :=
  path.getD (findStartIndex path t) defaultKeyframe

/-- `end = CAMERA_PATH[startIndex + 1]`. -/
def segmentEnd (path : List Keyframe) (t : ℚ) : Keyframe :=
  path.getD (findStartIndex path t + 1) defaultKeyframe

/-- `localT = end.t > start.t ? (t - start.t) / (end.t - start.t) : 1`. -/
def segmentLocalT (path : List Keyframe) (t : ℚ) : ℚ :=
  if (segmentStart path t).t < (segmentEnd path t).t then
    (t - (segmentStart path t).t) /
      ((segmentEnd path t).t - (segmentStart path t).t)
  else 1

/-- `easeT = smoothstep(clamp(localT, 0, 1))`. -/
def segmentEaseT (path : List Keyframe) (t : ℚ) : ℚ :=
  smoothstep (clamp (segmentLocalT path t) 0 1)

/-- The interpolated camera parameters of one frame. -/
structure CameraSample where
  pos : ℚ × ℚ × ℚ
  look : ℚ × ℚ × ℚ
  fov : ℚ
  roll : ℚ
deriving DecidableEq, Repr

/-- The eased interpolation of `CameraController`: `lerpVectors` on the
vector fields and `THREE.MathUtils.lerp` on `fov` and `roll`, all with the
eased fraction. -/
def sampleCamera (path : List Keyframe) (t : ℚ) : CameraSample :=
  { pos := lerpVectors (segmentStart path t).pos (segmentEnd path t).pos
      (segmentEaseT path t)
    look := lerpVectors (segmentStart path t).look (segmentEnd path t).look
      (segmentEaseT path t)
    fov := lerp (segmentStart path t).fov (segmentEnd path t).fov
      (segmentEaseT path t)
    roll := lerp (segmentStart path t).roll (segmentEnd path t).roll
      (segmentEaseT path t) }

/-- Window `i` of the path contains `t`. -/
def containsPair (path : List Keyframe) (i : ℕ) (t : ℚ) : Prop :=
  i + 1 < path.length ∧ (path.getD i defaultKeyframe).t ≤ t ∧
    t ≤ (path.getD (i + 1) defaultKeyframe).t

theorem camera_path_sorted : CAMERA_PATH.Pairwise (fun a b => a.t < b.t) := by
  simp [CAMERA_PATH, ETHOS_POS, List.pairwise_cons]
  norm_num

/-! ### Helper lemmas for the keyframe lookup -/

theorem camera_path_length : CAMERA_PATH.length = 15 := rfl

theorem findStartIndex_camera (t : ℚ) :
    findStartIndex CAMERA_PATH t =
      if (1 : ℚ) ≤ t then 13 else (scanPairs CAMERA_PATH t 0).getD 0 := rfl

theorem scanPairs_none (t : ℚ) : ∀ (l : List Keyframe) (n : ℕ),
    (∀ kf ∈ l, ¬ kf.t ≤ t) → scanPairs l t n = none := by
  intro l
  induction l with
  | nil => intro n _; rfl
  | cons a rest ih =>
      intro n h
      cases rest with
      | nil => rfl
      | cons b rest2 =>
          rw [scanPairs, if_neg]
          · exact ih (n + 1) (fun kf hk => h kf (List.mem_cons_of_mem _ hk))
          · intro hc
            exact h a (List.mem_cons_self _ _) hc.1

theorem sorted_get_lt {path : List Keyframe}
    (hsort : path.Pairwise (fun a b => a.t < b.t)) {i j : ℕ}
    (hij : i < j) (hj : j < path.length) :
    (path.getD i defaultKeyframe).t < (path.getD j defaultKeyframe).t := by
  have hi : i < path.length := lt_trans hij hj
  rw [List.getD_eq_get path defaultKeyframe hi,
    List.getD_eq_get path defaultKeyframe hj]
  exact List.pairwise_iff_get.mp hsort ⟨i, hi⟩ ⟨j, hj⟩ hij

theorem containsPair_unique {path : List Keyframe}
    (hsort : path.Pairwise (fun a b => a.t < b.t)) {i j : ℕ} {t : ℚ}
    (hi : containsPair path i t) (hj : containsPair path j t) :
    i = j ∨ ∃ m, m < path.length ∧ t = (path.getD m defaultKeyframe).t := by
  obtain ⟨hi1, hi2, hi3⟩ := hi
  obtain ⟨hj1, hj2, hj3⟩ := hj
  rcases Nat.lt_trichotomy i j with hlt | heq | hgt
  · rcases Nat.lt_or_ge (i + 1) j with hlt2 | hge
    · exfalso
      have := sorted_get_lt hsort hlt2 (by omega)
      linarith
    · have hj_eq : j = i + 1 := by omega
      subst hj_eq
      exact Or.inr ⟨i + 1, by omega, le_antisymm hi3 hj2⟩
  · exact Or.inl heq
  · rcases Nat.lt_or_ge (j + 1) i with hlt2 | hge
    · exfalso
      have := sorted_get_lt hsort hlt2 (by omega)
      linarith
    · have hi_eq : i = j + 1 := by omega
      subst hi_eq
      exact Or.inr ⟨j + 1, by omega, le_antisymm hj3 hi2⟩

/-! ## Claim C2 : keyframe-track lookup and eased interpolation -/

theorem scanPairs_sound (t : ℚ) : ∀ (l : List Keyframe) (n i : ℕ),
    scanPairs l t n = some i → n ≤ i ∧ i - n + 1 < l.length ∧
      (l.getD (i - n) defaultKeyframe).t ≤ t ∧
      t ≤ (l.getD (i - n + 1) defaultKeyframe).t := by
  intro l
  induction l with
  | nil => intro n i h; exact Option.noConfusion h
  | cons a rest ih =>
      intro n i h
      cases rest with
      | nil => exact Option.noConfusion h
      | cons b rest2 =>
          rw [scanPairs] at h
          by_cases hw : a.t ≤ t ∧ t ≤ b.t
          · rw [if_pos hw] at h
            obtain rfl : n = i := Option.some.inj h
            refine ⟨le_refl n, ?_, ?_, ?_⟩
            · simp only [Nat.sub_self, List.length_cons]
              omega
            · simpa [Nat.sub_self] using hw.1
            · simpa [Nat.sub_self] using hw.2
          · rw [if_neg hw] at h
            obtain ⟨h1, h2, h3, h4⟩ := ih (n + 1) i h
            have hin : i - n = (i - (n + 1)) + 1 := by omega
            refine ⟨by omega, ?_, ?_, ?_⟩
            · simp only [List.length_cons] at h2 ⊢
              omega
            · rw [hin, List.getD_cons_succ]
              exact h3
            · rw [hin, List.getD_cons_succ]
              exact h4

theorem scanPairs_isSome (t : ℚ) : ∀ (l : List Keyframe) (n : ℕ),
    (l.headD defaultKeyframe).t ≤ t →
    t ≤ ((l.getLast?).getD defaultKeyframe).t →
    2 ≤ l.length → ∃ i, scanPairs l t n = some i := by
  intro l
  induction l with
  | nil => intro n _ _ h2; simp at h2
  | cons a rest ih =>
      intro n hhead hlast h2
      cases rest with
      | nil => simp at h2
      | cons b rest2 =>
          by_cases hw : a.t ≤ t ∧ t ≤ b.t
          · exact ⟨n, by rw [scanPairs, if_pos hw]⟩
          · have hbt : b.t ≤ t := by
              rcases not_and_or.mp hw with h | h
              · exact absurd hhead h
              · push_neg at h
                linarith
            cases rest2 with
            | nil => exact absurd ⟨hhead, hlast⟩ hw
            | cons c rest3 =>
                have hlast2 : t ≤ (((b :: c :: rest3).getLast?).getD
                    defaultKeyframe).t := by
                  rw [← List.getLast?_cons_cons]
                  exact hlast
                obtain ⟨i, hi⟩ := ih (n + 1) hbt hlast2 (by
                  simp only [List.length_cons]
                  omega)
                exact ⟨i, by rw [scanPairs, if_neg hw]; exact hi⟩

set_option maxHeartbeats 1000000 in
/-- C2: the lookup scans for the first window containing the progress and
returns it (for progress in `[0,1]` the returned window always contains
it, and a window containing a non-keyframe progress is unique); at or
beyond the last keyframe it uses the final pair with clamped local
fraction `1`, before the first it uses the first pair with fraction `0`;
the local fraction is linear, forced to `1` on a degenerate pair, and
passed through the smoothstep ease `x²(3-2x)` before interpolation;
consequently sampling at any keyframe's exact progress reproduces that
keyframe's fields exactly. -/
theorem keyframe_track_locate (t : ℚ) (i j k : ℕ) (path : List Keyframe) :
    (t ≤ 0 → findStartIndex CAMERA_PATH t = 0 ∧
      clamp (segmentLocalT CAMERA_PATH t) 0 1 = 0) ∧
    (1 ≤ t → findStartIndex CAMERA_PATH t = 13 ∧
      clamp (segmentLocalT CAMERA_PATH t) 0 1 = 1) ∧
    (0 ≤ t → t ≤ 1 →
      containsPair CAMERA_PATH (findStartIndex CAMERA_PATH t) t) ∧
    (containsPair CAMERA_PATH i t → containsPair CAMERA_PATH j t →
      i = j ∨ ∃ m, m < CAMERA_PATH.length ∧
        t = (CAMERA_PATH.getD m defaultKeyframe).t) ∧
    (¬ (segmentStart path t).t < (segmentEnd path t).t →
      segmentLocalT path t = 1) ∧
    segmentEaseT path t = smoothstep (clamp (segmentLocalT path t) 0 1) ∧
    (∀ x : ℚ, smoothstep x = x * x * (3 - 2 * x)) ∧
    (k < CAMERA_PATH.length →
      sampleCamera CAMERA_PATH ((CAMERA_PATH.getD k defaultKeyframe).t) =
        { pos := (CAMERA_PATH.getD k defaultKeyframe).pos,
          look := (CAMERA_PATH.getD k defaultKeyframe).look,
          fov := (CAMERA_PATH.getD k defaultKeyframe).fov,
          roll := (CAMERA_PATH.getD k defaultKeyframe).roll }) := by
  refine ⟨?_, ?_, ?_,
    fun hi hj => containsPair_unique camera_path_sorted hi hj,
    fun hd => by rw [segmentLocalT, if_neg hd], rfl, fun x => rfl, ?_⟩
  · intro ht
    have hnov : ¬ (1 : ℚ) ≤ t := by linarith
    have hidx : findStartIndex CAMERA_PATH t = 0 := by
      rw [findStartIndex_camera, if_neg hnov]
      rcases eq_or_lt_of_le ht with heq | hlt
      · rw [heq]
        norm_num [CAMERA_PATH, ETHOS_POS, scanPairs]
      · have hnone : scanPairs CAMERA_PATH t 0 = none := by
          apply scanPairs_none
          intro kf hk
          simp only [CAMERA_PATH] at hk
          fin_cases hk <;> (intro hc; norm_num at hc) <;> linarith
        rw [hnone]
        rfl
    have hs : segmentStart CAMERA_PATH t = ⟨0, (0, 1, 16), (0, 0, 0), 70, 0⟩ := by
      rw [segmentStart, hidx]; rfl
    have hEnd : segmentEnd CAMERA_PATH t = ⟨8/100, (40, 3/10, 14), ETHOS_POS, 64, 0⟩ := by
      rw [segmentEnd, hidx]; rfl
    refine ⟨hidx, ?_⟩
    have hloc : segmentLocalT CAMERA_PATH t = 25 / 2 * t := by
      rw [segmentLocalT, hs, hEnd, if_pos (by norm_num)]
      show (t - 0) / (8 / 100 - 0) = 25 / 2 * t
      ring
    rw [hloc, clamp, min_eq_right (by linarith), max_eq_left (by linarith)]
  · intro ht
    have hidx : findStartIndex CAMERA_PATH t = 13 := by
      rw [findStartIndex_camera, if_pos ht]
    have hs : segmentStart CAMERA_PATH t = ⟨93/100, (140, 0, -15), (140, -1, -35), 42, 0⟩ := by
      rw [segmentStart, hidx]; rfl
    have hEnd : segmentEnd CAMERA_PATH t = ⟨1, (140, 0, -25), (140, -1, -45), 42, 0⟩ := by
      rw [segmentEnd, hidx]; rfl
    refine ⟨hidx, ?_⟩
    have hloc : segmentLocalT CAMERA_PATH t = 100 / 7 * t - 93 / 7 := by
      rw [segmentLocalT, hs, hEnd, if_pos (by norm_num)]
      show (t - 93 / 100) / (1 - 93 / 100) = 100 / 7 * t - 93 / 7
      ring
    rw [hloc, clamp, min_eq_left (by linarith), max_eq_right (by norm_num)]
  · intro ht0 ht1
    by_cases hover : (1 : ℚ) ≤ t
    · have hidx : findStartIndex CAMERA_PATH t = 13 := by
        rw [findStartIndex_camera, if_pos hover]
      rw [hidx]
      refine ⟨by norm_num [camera_path_length], ?_, ?_⟩
      · show (93 / 100 : ℚ) ≤ t
        linarith
      · show t ≤ (1 : ℚ)
        exact ht1
    · rw [findStartIndex_camera, if_neg hover]
      obtain ⟨i2, hi2⟩ := scanPairs_isSome t CAMERA_PATH 0
        (by show (0 : ℚ) ≤ t; exact ht0)
        (by show t ≤ (1 : ℚ); exact ht1)
        (by rw [camera_path_length]; omega)
      rw [hi2]
      obtain ⟨hn, hlen, hle1, hle2⟩ := scanPairs_sound t CAMERA_PATH 0 i2 hi2
      simp only [Nat.sub_zero] at hlen hle1 hle2
      exact ⟨hlen, hle1, hle2⟩
  · intro hk
    rw [camera_path_length] at hk
    interval_cases k
    · -- k = 0, t = 0
      have hidx : findStartIndex CAMERA_PATH (0) = 0 := by
        rw [findStartIndex_camera, if_neg (by norm_num)]
        norm_num [CAMERA_PATH, ETHOS_POS, scanPairs]
      have hs : segmentStart CAMERA_PATH (0) = ⟨0, (0, 1, 16), (0, 0, 0), 70, 0⟩ := by
        rw [segmentStart, hidx]; rfl
      have hEnd : segmentEnd CAMERA_PATH (0) = ⟨8/100, (40, 3/10, 14), ETHOS_POS, 64, 0⟩ := by
        rw [segmentEnd, hidx]; rfl
      show sampleCamera CAMERA_PATH (0) =
        { pos := (0, 1, 16), look := (0, 0, 0), fov := 70, roll := 0 }
      rw [sampleCamera, segmentEaseT, segmentLocalT, hs, hEnd]
      norm_num [smoothstep, clamp, lerp, lerpVectors, min_def,
        max_def, ETHOS_POS]
    · -- k = 1, t = 8/100
      have hidx : findStartIndex CAMERA_PATH (8/100) = 0 := by
        rw [findStartIndex_camera, if_neg (by norm_num)]
        norm_num [CAMERA_PATH, ETHOS_POS, scanPairs]
      have hs : segmentStart CAMERA_PATH (8/100) = ⟨0, (0, 1, 16), (0, 0, 0), 70, 0⟩ := by
        rw [segmentStart, hidx]; rfl
      have hEnd : segmentEnd CAMERA_PATH (8/100) = ⟨8/100, (40, 3/10, 14), ETHOS_POS, 64, 0⟩ := by
        rw [segmentEnd, hidx]; rfl
      show sampleCamera CAMERA_PATH (8/100) =
        { pos := (40, 3/10, 14), look := ETHOS_POS, fov := 64, roll := 0 }
      rw [sampleCamera, segmentEaseT, segmentLocalT, hs, hEnd]
      norm_num [smoothstep, clamp, lerp, lerpVectors, min_def,
        max_def, ETHOS_POS]
    · -- k = 2, t = 24/100
      have hidx : findStartIndex CAMERA_PATH (24/100) = 1 := by
        rw [findStartIndex_camera, if_neg (by norm_num)]
        norm_num [CAMERA_PATH, ETHOS_POS, scanPairs]
      have hs : segmentStart CAMERA_PATH (24/100) = ⟨8/100, (40, 3/10, 14), ETHOS_POS, 64, 0⟩ := by
        rw [segmentStart, hidx]; rfl
      have hEnd : segmentEnd CAMERA_PATH (24/100) = ⟨24/100, (65, 0, 12), ETHOS_POS, 60, 0⟩ := by
        rw [segmentEnd, hidx]; rfl
      show sampleCamera CAMERA_PATH (24/100) =
        { pos := (65, 0, 12), look := ETHOS_POS, fov := 60, roll := 0 }
      rw [sampleCamera, segmentEaseT, segmentLocalT, hs, hEnd]
      norm_num [smoothstep, clamp, lerp, lerpVectors, min_def,
        max_def, ETHOS_POS]
    · -- k = 3, t = 30/100
      have hidx : findStartIndex CAMERA_PATH (30/100) = 2 := by
        rw [findStartIndex_camera, if_neg (by norm_num)]
        norm_num [CAMERA_PATH, ETHOS_POS, scanPairs]
      have hs : segmentStart CAMERA_PATH (30/100) = ⟨24/100, (65, 0, 12), ETHOS_POS, 60, 0⟩ := by
        rw [segmentStart, hidx]; rfl
      have hEnd : segmentEnd CAMERA_PATH (30/100) = ⟨30/100, (80, 1/2, 12), (80, 0, 0), 68, 0⟩ := by
        rw [segmentEnd, hidx]; rfl
      show sampleCamera CAMERA_PATH (30/100) =
        { pos := (80, 1/2, 12), look := (80, 0, 0), fov := 68, roll := 0 }
      rw [sampleCamera, segmentEaseT, segmentLocalT, hs, hEnd]
      norm_num [smoothstep, clamp, lerp, lerpVectors, min_def,
        max_def, ETHOS_POS]
    · -- k = 4, t = 38/100
      have hidx : findStartIndex CAMERA_PATH (38/100) = 3 := by
        rw [findStartIndex_camera, if_neg (by norm_num)]
        norm_num [CAMERA_PATH, ETHOS_POS, scanPairs]
      have hs : segmentStart CAMERA_PATH (38/100) = ⟨30/100, (80, 1/2, 12), (80, 0, 0), 68, 0⟩ := by
        rw [segmentStart, hidx]; rfl
      have hEnd : segmentEnd CAMERA_PATH (38/100) = ⟨38/100, (100, 0, 9), (100, 0, 0), 62, -1⟩ := by
        rw [segmentEnd, hidx]; rfl
      show sampleCamera CAMERA_PATH (38/100) =
        { pos := (100, 0, 9), look := (100, 0, 0), fov := 62, roll := -1 }
      rw [sampleCamera, segmentEaseT, segmentLocalT, hs, hEnd]
      norm_num [smoothstep, clamp, lerp, lerpVectors, min_def,
        max_def, ETHOS_POS]
    · -- k = 5, t = 44/100
      have hidx : findStartIndex CAMERA_PATH (44/100) = 4 := by
        rw [findStartIndex_camera, if_neg (by norm_num)]
        norm_num [CAMERA_PATH, ETHOS_POS, scanPairs]
      have hs : segmentStart CAMERA_PATH (44/100) = ⟨38/100, (100, 0, 9), (100, 0, 0), 62, -1⟩ := by
        rw [segmentStart, hidx]; rfl
      have hEnd : segmentEnd CAMERA_PATH (44/100) = ⟨44/100, (100, 0, 6), (100, 0, 0), 52, 0⟩ := by
        rw [segmentEnd, hidx]; rfl
      show sampleCamera CAMERA_PATH (44/100) =
        { pos := (100, 0, 6), look := (100, 0, 0), fov := 52, roll := 0 }
      rw [sampleCamera, segmentEaseT, segmentLocalT, hs, hEnd]
      norm_num [smoothstep, clamp, lerp, lerpVectors, min_def,
        max_def, ETHOS_POS]
    · -- k = 6, t = 52/100
      have hidx : findStartIndex CAMERA_PATH (52/100) = 5 := by
        rw [findStartIndex_camera, if_neg (by norm_num)]
        norm_num [CAMERA_PATH, ETHOS_POS, scanPairs]
      have hs : segmentStart CAMERA_PATH (52/100) = ⟨44/100, (100, 0, 6), (100, 0, 0), 52, 0⟩ := by
        rw [segmentStart, hidx]; rfl
      have hEnd : segmentEnd CAMERA_PATH (52/100) = ⟨52/100, (110, 3/10, 10), (110, 0, 0), 60, 1⟩ := by
        rw [segmentEnd, hidx]; rfl
      show sampleCamera CAMERA_PATH (52/100) =
        { pos := (110, 3/10, 10), look := (110, 0, 0), fov := 60, roll := 1 }
      rw [sampleCamera, segmentEaseT, segmentLocalT, hs, hEnd]
      norm_num [smoothstep, clamp, lerp, lerpVectors, min_def,
        max_def, ETHOS_POS]
    · -- k = 7, t = 58/100
      have hidx : findStartIndex CAMERA_PATH (58/100) = 6 := by
        rw [findStartIndex_camera, if_neg (by norm_num)]
        norm_num [CAMERA_PATH, ETHOS_POS, scanPairs]
      have hs : segmentStart CAMERA_PATH (58/100) = ⟨52/100, (110, 3/10, 10), (110, 0, 0), 60, 1⟩ := by
        rw [segmentStart, hidx]; rfl
      have hEnd : segmentEnd CAMERA_PATH (58/100) = ⟨58/100, (120, 0, 9), (120, 0, 0), 58, -1/2⟩ := by
        rw [segmentEnd, hidx]; rfl
      show sampleCamera CAMERA_PATH (58/100) =
        { pos := (120, 0, 9), look := (120, 0, 0), fov := 58, roll := -1/2 }
      rw [sampleCamera, segmentEaseT, segmentLocalT, hs, hEnd]
      norm_num [smoothstep, clamp, lerp, lerpVectors, min_def,
        max_def, ETHOS_POS]
    · -- k = 8, t = 62/100
      have hidx : findStartIndex CAMERA_PATH (62/100) = 7 := by
        rw [findStartIndex_camera, if_neg (by norm_num)]
        norm_num [CAMERA_PATH, ETHOS_POS, scanPairs]
      have hs : segmentStart CAMERA_PATH (62/100) = ⟨58/100, (120, 0, 9), (120, 0, 0), 58, -1/2⟩ := by
        rw [segmentStart, hidx]; rfl
      have hEnd : segmentEnd CAMERA_PATH (62/100) = ⟨62/100, (120, 0, 6), (120, 0, 0), 52, 0⟩ := by
        rw [segmentEnd, hidx]; rfl
      show sampleCamera CAMERA_PATH (62/100) =
        { pos := (120, 0, 6), look := (120, 0, 0), fov := 52, roll := 0 }
      rw [sampleCamera, segmentEaseT, segmentLocalT, hs, hEnd]
      norm_num [smoothstep, clamp, lerp, lerpVectors, min_def,
        max_def, ETHOS_POS]
    · -- k = 9, t = 70/100
      have hidx : findStartIndex CAMERA_PATH (70/100) = 8 := by
        rw [findStartIndex_camera, if_neg (by norm_num)]
        norm_num [CAMERA_PATH, ETHOS_POS, scanPairs]
      have hs : segmentStart CAMERA_PATH (70/100) = ⟨62/100, (120, 0, 6), (120, 0, 0), 52, 0⟩ := by
        rw [segmentStart, hidx]; rfl
      have hEnd : segmentEnd CAMERA_PATH (70/100) = ⟨70/100, (130, 3/10, 10), (130, 0, 0), 60, 1/2⟩ := by
        rw [segmentEnd, hidx]; rfl
      show sampleCamera CAMERA_PATH (70/100) =
        { pos := (130, 3/10, 10), look := (130, 0, 0), fov := 60, roll := 1/2 }
      rw [sampleCamera, segmentEaseT, segmentLocalT, hs, hEnd]
      norm_num [smoothstep, clamp, lerp, lerpVectors, min_def,
        max_def, ETHOS_POS]
    · -- k = 10, t = 76/100
      have hidx : findStartIndex CAMERA_PATH (76/100) = 9 := by
        rw [findStartIndex_camera, if_neg (by norm_num)]
        norm_num [CAMERA_PATH, ETHOS_POS, scanPairs]
      have hs : segmentStart CAMERA_PATH (76/100) = ⟨70/100, (130, 3/10, 10), (130, 0, 0), 60, 1/2⟩ := by
        rw [segmentStart, hidx]; rfl
      have hEnd : segmentEnd CAMERA_PATH (76/100) = ⟨76/100, (140, 0, 9), (140, 0, 0), 58, -1/2⟩ := by
        rw [segmentEnd, hidx]; rfl
      show sampleCamera CAMERA_PATH (76/100) =
        { pos := (140, 0, 9), look := (140, 0, 0), fov := 58, roll := -1/2 }
      rw [sampleCamera, segmentEaseT, segmentLocalT, hs, hEnd]
      norm_num [smoothstep, clamp, lerp, lerpVectors, min_def,
        max_def, ETHOS_POS]
    · -- k = 11, t = 80/100
      have hidx : findStartIndex CAMERA_PATH (80/100) = 10 := by
        rw [findStartIndex_camera, if_neg (by norm_num)]
        norm_num [CAMERA_PATH, ETHOS_POS, scanPairs]
      have hs : segmentStart CAMERA_PATH (80/100) = ⟨76/100, (140, 0, 9), (140, 0, 0), 58, -1/2⟩ := by
        rw [segmentStart, hidx]; rfl
      have hEnd : segmentEnd CAMERA_PATH (80/100) = ⟨80/100, (140, 0, 6), (140, 0, 0), 52, 0⟩ := by
        rw [segmentEnd, hidx]; rfl
      show sampleCamera CAMERA_PATH (80/100) =
        { pos := (140, 0, 6), look := (140, 0, 0), fov := 52, roll := 0 }
      rw [sampleCamera, segmentEaseT, segmentLocalT, hs, hEnd]
      norm_num [smoothstep, clamp, lerp, lerpVectors, min_def,
        max_def, ETHOS_POS]
    · -- k = 12, t = 86/100
      have hidx : findStartIndex CAMERA_PATH (86/100) = 11 := by
        rw [findStartIndex_camera, if_neg (by norm_num)]
        norm_num [CAMERA_PATH, ETHOS_POS, scanPairs]
      have hs : segmentStart CAMERA_PATH (86/100) = ⟨80/100, (140, 0, 6), (140, 0, 0), 52, 0⟩ := by
        rw [segmentStart, hidx]; rfl
      have hEnd : segmentEnd CAMERA_PATH (86/100) = ⟨86/100, (140, 0, 0), (140, -1, -20), 42, 0⟩ := by
        rw [segmentEnd, hidx]; rfl
      show sampleCamera CAMERA_PATH (86/100) =
        { pos := (140, 0, 0), look := (140, -1, -20), fov := 42, roll := 0 }
      rw [sampleCamera, segmentEaseT, segmentLocalT, hs, hEnd]
      norm_num [smoothstep, clamp, lerp, lerpVectors, min_def,
        max_def, ETHOS_POS]
    · -- k = 13, t = 93/100
      have hidx : findStartIndex CAMERA_PATH (93/100) = 12 := by
        rw [findStartIndex_camera, if_neg (by norm_num)]
        norm_num [CAMERA_PATH, ETHOS_POS, scanPairs]
      have hs : segmentStart CAMERA_PATH (93/100) = ⟨86/100, (140, 0, 0), (140, -1, -20), 42, 0⟩ := by
        rw [segmentStart, hidx]; rfl
      have hEnd : segmentEnd CAMERA_PATH (93/100) = ⟨93/100, (140, 0, -15), (140, -1, -35), 42, 0⟩ := by
        rw [segmentEnd, hidx]; rfl
      show sampleCamera CAMERA_PATH (93/100) =
        { pos := (140, 0, -15), look := (140, -1, -35), fov := 42, roll := 0 }
      rw [sampleCamera, segmentEaseT, segmentLocalT, hs, hEnd]
      norm_num [smoothstep, clamp, lerp, lerpVectors, min_def,
        max_def, ETHOS_POS]
    · -- k = 14, t = 1
      have hidx : findStartIndex CAMERA_PATH (1) = 13 := by
        rw [findStartIndex_camera, if_pos (by norm_num)]
      have hs : segmentStart CAMERA_PATH (1) = ⟨93/100, (140, 0, -15), (140, -1, -35), 42, 0⟩ := by
        rw [segmentStart, hidx]; rfl
      have hEnd : segmentEnd CAMERA_PATH (1) = ⟨1, (140, 0, -25), (140, -1, -45), 42, 0⟩ := by
        rw [segmentEnd, hidx]; rfl
      show sampleCamera CAMERA_PATH (1) =
        { pos := (140, 0, -25), look := (140, -1, -45), fov := 42, roll := 0 }
      rw [sampleCamera, segmentEaseT, segmentLocalT, hs, hEnd]
      norm_num [smoothstep, clamp, lerp, lerpVectors, min_def,
        max_def, ETHOS_POS]

/-- Witness for C2 at concrete inputs: before-the-first and beyond-the-last
behaviour, a contained window at `t = 1/2`, uniqueness applied to the
window pair `(7,7)`, and exact reproduction of keyframe `5`. -/
theorem keyframe_track_locate_witness :
    (findStartIndex CAMERA_PATH (-1) = 0 ∧
      clamp (segmentLocalT CAMERA_PATH (-1)) 0 1 = 0) ∧
    (findStartIndex CAMERA_PATH 2 = 13 ∧
      clamp (segmentLocalT CAMERA_PATH 2) 0 1 = 1) ∧
    containsPair CAMERA_PATH (findStartIndex CAMERA_PATH (1 / 2)) (1 / 2) ∧
    sampleCamera CAMERA_PATH ((CAMERA_PATH.getD 5 defaultKeyframe).t) =
      { pos := (CAMERA_PATH.getD 5 defaultKeyframe).pos,
        look := (CAMERA_PATH.getD 5 defaultKeyframe).look,
        fov := (CAMERA_PATH.getD 5 defaultKeyframe).fov,
        roll := (CAMERA_PATH.getD 5 defaultKeyframe).roll } := by
  have hneg := keyframe_track_locate (-1) 0 0 5 []
  have hbig := keyframe_track_locate 2 0 0 5 []
  have hmid := keyframe_track_locate (1 / 2) 0 0 5 []
  exact ⟨hneg.1 (by norm_num), hbig.2.1 (by norm_num),
    hmid.2.2.1 (by norm_num) (by norm_num),
    hmid.2.2.2.2.2.2.2 (by rw [camera_path_length]; omega)⟩

end Portfolio
